import Mathlib

/-!
Shallow embedding of the core of the gdal_viirs repository
(src/gdal_viirs/process.py and src/gdal_viirs/hl/ViirsProcessor.py).

Numpy float64 values are modelled by the inductive type FV: either NaN,
one of the two infinities, or a finite value represented exactly as a
rational number.  Signed zero is not modelled (only +0 exists); the
elementwise numpy operations used by the source (addition, subtraction,
multiplication, true division, comparisons against constants) are
translated case by case following IEEE-754 semantics, which numpy follows.
Numpy arrays are lists (1-d) or lists of lists (2-d); elementwise
whole-array operations in the source become per-element functions mapped
or zipped over the lists.
-/

set_option autoImplicit false

/-- Model of a numpy float64 cell value: NaN, plus or minus infinity, or a
finite value held exactly as a rational. -/
inductive FV where
  | nan : FV
  | inf : FV
  | ninf : FV
  | fin (q : ℚ) : FV
deriving DecidableEq

namespace FV

/-- np.isfinite. -/
def isFinite : FV → Bool
  | fin _ => true
  | _ => false

/-- np.isnan. -/
def isnan : FV → Bool
  | nan => true
  | _ => false

/-- IEEE-754 addition on the modelled values. -/
def add : FV → FV → FV
  | nan, _ => nan
  | _, nan => nan
  | inf, ninf => nan
  | ninf, inf => nan
  | inf, _ => inf
  | _, inf => inf
  | ninf, _ => ninf
  | _, ninf => ninf
  | fin a, fin b => fin (a + b)

/-- IEEE-754 subtraction on the modelled values. -/
def sub : FV → FV → FV
  | nan, _ => nan
  | _, nan => nan
  | inf, inf => nan
  | ninf, ninf => nan
  | inf, _ => inf
  | _, inf => ninf
  | ninf, _ => ninf
  | _, ninf => inf
  | fin a, fin b => fin (a - b)

/-- IEEE-754 multiplication on the modelled values. -/
def mul : FV → FV → FV
  | nan, _ => nan
  | _, nan => nan
  | inf, inf => inf
  | inf, ninf => ninf
  | ninf, inf => ninf
  | ninf, ninf => inf
  | inf, fin b => if b = 0 then nan else if 0 < b then inf else ninf
  | fin a, inf => if a = 0 then nan else if 0 < a then inf else ninf
  | ninf, fin b => if b = 0 then nan else if 0 < b then ninf else inf
  | fin a, ninf => if a = 0 then nan else if 0 < a then ninf else inf
  | fin a, fin b => fin (a * b)

/-- IEEE-754 true division on the modelled values (divisor zero is treated
as +0, the only zero of the model): 0/0 is NaN, a nonzero finite value
divided by zero is a signed infinity, a finite value divided by an
infinity is zero. -/
def div : FV → FV → FV
  | nan, _ => nan
  | _, nan => nan
  | inf, inf => nan
  | inf, ninf => nan
  | ninf, inf => nan
  | ninf, ninf => nan
  | inf, fin b => if b < 0 then ninf else inf
  | ninf, fin b => if b < 0 then inf else ninf
  | fin _, inf => fin 0
  | fin _, ninf => fin 0
  | fin a, fin b =>
      if b = 0 then (if a = 0 then nan else if 0 < a then inf else ninf)
      else fin (a / b)

/-- Comparison value > c against a finite constant: NaN compares false. -/
def gtQ (x : FV) (c : ℚ) : Bool :=
  match x with
  | fin a => decide (c < a)
  | inf => true
  | _ => false

/-- Comparison value < c against a finite constant: NaN compares false. -/
def ltQ (x : FV) (c : ℚ) : Bool :=
  match x with
  | fin a => decide (a < c)
  | ninf => true
  | _ => false

/-- Equality test value == c against a finite constant: NaN and the
infinities compare false. -/
def eqQ (x : FV) (c : ℚ) : Bool :=
  match x with
  | fin a => decide (a = c)
  | _ => false

end FV

/-- The exception taxonomy of the source, plus the builtin Python
exceptions the source can actually raise.  assertionError stands for a
failed assert statement, valueError for the ValueError numpy raises on a
zero-size array reduction. -/
inductive ProcError where
  | invalidData : ProcError
  | subDatasetNotFound : ProcError
  | corruptedFile : ProcError
  | processingException : ProcError
  | assertionError : ProcError
  | valueError : ProcError
  | notImplementedError : ProcError
deriving DecidableEq

deriving instance DecidableEq for Except

/-- np.round on a finite value: round half to even (banker rounding). -/
def roundHalfEven (q : ℚ) : ℤ :=
  let f := ⌊q⌋
  let r := q - (f : ℚ)
  if r < 1 / 2 then f
  else if 1 / 2 < r then f + 1
  else if f % 2 = 0 then f else f + 1

namespace FV

/-- np.int_(np.round(x)) on one float64 cell: a finite value is rounded
half to even; casting NaN or an infinity to int64 yields INT64_MIN on the
x86 platforms numpy targets (the cast does not raise). -/
def castRoundInt : FV → ℤ
  | fin q => roundHalfEven q
  | _ => -(2 ^ 63)

end FV

/-- ndarray.min() on a nonempty integer list (the source guards the empty
case separately, where numpy raises ValueError). -/
def npmin (l : List ℤ) : ℤ := l.foldl min (l.headD 0)

/-- ndarray.max() on a nonempty integer list. -/
def npmax (l : List ℤ) : ℤ := l.foldl max (l.headD 0)

/-- The record returned by process_geoloc_file (types.ProcessedGeolocFile).
The 2-d lat/lon arrays enter masked and flattened, so the index arrays are
1-d integer lists.  out_image_shape is (rows, cols). -/
structure ProcessedGeolocFile where
  x_index : List ℤ
  y_index : List ℤ
  lonlat_mask : List Bool
  geotransform_max_y : ℤ
  geotransform_min_x : ℤ
  scale : ℚ
  out_image_shape : ℤ × ℤ
deriving DecidableEq

/-- process.py, process_geoloc_file (lines 110-149), after the lat and lon
arrays have been read from the file.  The pyproj projection collaborator is
the parameter `projection`, applied elementwise to (lon, lat) pairs and
returning float64 planar coordinates (possibly non-finite).  The source
asserts finiteness of x_index twice (lines 125-126): the second assert has
a message naming y_index but re-checks x_index, and that slip is kept here.
On an empty masked selection the first reduction x_index.min() (line 129)
raises ValueError (zero-size array reduction).  np.int_(np.round(...)) on a
non-finite float yields INT64_MIN (see FV.castRoundInt). -/
def process_geoloc_file (projection : ℚ → ℚ → FV × FV) (lat lon : List ℚ)
    (scale : ℚ) : Except ProcError ProcessedGeolocFile :=
  let lonlat_mask := List.zipWith
    (fun lo la => decide (lo > -200) && decide (la > -200)) lon lat
  let pts := (List.zip lon lat).filter
    (fun p => decide (p.1 > -200) && decide (p.2 > -200))
  let x_proj := pts.map (fun p => (projection p.1 p.2).1)
  let y_proj := pts.map (fun p => (projection p.1 p.2).2)
  if x_proj.all FV.isFinite then
    if x_proj.all FV.isFinite then
      let x_index := x_proj.map FV.castRoundInt
      let y_index := y_proj.map FV.castRoundInt
      if pts = [] then Except.error ProcError.valueError
      else
        let x_min := npmin x_index
        let y_max := npmax y_index
        let x_index2 := x_index.map (fun v : ℤ => roundHalfEven ((v : ℚ) / scale))
        let y_index2 := y_index.map (fun v : ℤ => roundHalfEven ((v : ℚ) / scale))
        let x_index3 := x_index2.map (fun v => v - npmin x_index2)
        let y_index3 := y_index2.map (fun v => v - npmin y_index2)
        let out_image_shape := (npmax y_index3 + 1, npmax x_index3 + 1)
        Except.ok
          (ProcessedGeolocFile.mk x_index3 y_index3 lonlat_mask
            y_max x_min scale out_image_shape)
    else Except.error ProcError.assertionError
  else Except.error ProcError.assertionError

/-- A 2-d numpy float array, as a list of rows. -/
abbrev Grid := List (List FV)

/-- ndarray.shape of a rectangular 2-d array: (rows, cols). -/
def gridShape (g : Grid) : ℕ × ℕ := (g.length, (g.headD []).length)

/-- np.full(shape, np.nan). -/
def npfull (shape : ℕ × ℕ) : Grid :=
  List.replicate shape.1 (List.replicate shape.2 FV.nan)

/-- np.zeros(shape). -/
def npzeros (shape : ℕ × ℕ) : Grid :=
  List.replicate shape.1 (List.replicate shape.2 (FV.fin 0))

/-- Read one cell of a 2-d array (with NaN as junk default out of range;
all uses in the theorems are guarded by bounds). -/
def getCell (g : Grid) (r c : ℕ) : FV := (g.getD r []).getD c FV.nan

/-- Write one cell of a 2-d array (List.set is a no-op out of range; the
source only writes in-range indices). -/
def setCell (g : Grid) (r c : ℕ) (v : FV) : Grid :=
  g.set r ((g.getD r []).set c v)

/-- process.py line 196, image[y_index, x_index] = arr: numpy advanced
index assignment, which writes the (index, value) triples one after the
other in iteration order, so on duplicate target cells the last write
wins. -/
def npIndexAssign (image : Grid) (ys xs : List ℕ) (vals : List FV) : Grid :=
  ((ys.zip xs).zip vals).foldl (fun g p => setCell g p.1.1 p.1.2 p.2) image

/-- One entry of the band loop of process.py, _process_band_files (lines
228-235): the band group tag of the descriptor, and the outcome of the
process_band_file call for it: some grid on success, none when it raised
(the except branch logs and appends None). -/
structure BandFileRun where
  band : ℕ
  result : Option Grid
deriving DecidableEq

/-- process.py, _process_band_files (lines 220-247), with each per-band
process_band_file call abstracted into the precomputed outcome carried by
its BandFileRun.  Note line 240 of the source: assert len(set(...)) tests
only that the set of shapes of successful bands is nonempty (Python
truthiness of the length), not that it has exactly one element. -/
def process_band_files (files : List BandFileRun) :
    Except ProcError (List Grid) :=
  if files.length = 0 then Except.error ProcError.assertionError
  else if ¬ (files.map (fun f => f.band)).dedup.length = 1 then
    Except.error ProcError.assertionError
  else
    let arrays := files.map (fun f => f.result)
    if arrays.all Option.isNone then Except.error ProcError.processingException
    else
      let shapes := ((arrays.filterMap id).map gridShape).dedup
      if shapes.length = 0 then Except.error ProcError.assertionError
      else
        let shape := ((arrays.filterMap id).map gridShape).headD (0, 0)
        Except.ok (arrays.map (fun a =>
          match a with
          | some v => v
          | none => npfull shape))

/-- process.py line 256: ndvi = (svi02 - svi01) / (svi01 + svi02), one
cell. -/
def process_ndvi_px (svi01 svi02 : FV) : FV :=
  FV.div (FV.sub svi02 svi01) (FV.add svi01 svi02)

/-- Elementwise combination of two equal-shaped 2-d arrays, the semantics
of the whole-array numpy expressions of the source. -/
def zipWith2D (f : FV → FV → FV) (a b : Grid) : Grid :=
  List.zipWith (List.zipWith f) a b

/-- process.py line 256 on whole arrays. -/
def process_ndvi (svi01 svi02 : Grid) : Grid :=
  zipWith2D process_ndvi_px svi01 svi02

/-- process.py, calc_ndvi_dynamics (lines 322-326), one cell: the raw
relative change 100*(b2-b1)/b1 followed by the two masked clamp
assignments (data[data > 998] = 998, data[data < -998] = -998; NaN
compares false on both, an infinity is caught by the matching one). -/
def calc_ndvi_dynamics (b1 b2 : FV) : FV :=
  let data := FV.div (FV.mul (FV.fin 100) (FV.sub b2 b1)) b1
  let data2 := if data.gtQ 998 then FV.fin 998 else data
  if data2.ltQ (-998) then FV.fin (-998) else data2

/-- process.py, process_ndvi_dynamics core (lines 337-342), one cell of
the already cropped equal-shaped inputs: b3 is initialized to NaN, cells
selected by data_mask receive calc_ndvi_dynamics, cells selected by
cloud_mask are overwritten with -999 afterwards. -/
def process_ndvi_dynamics_px (v1 v2 : FV) : FV :=
  let nan_mask := v1.isnan || v2.isnan
  let cloud_mask := FV.eqQ v1 (-2) || FV.eqQ v2 (-2)
  let data_mask := !nan_mask && !cloud_mask
  let b3 := FV.nan
  let b3d := if data_mask then calc_ndvi_dynamics v1 v2 else b3
  if cloud_mask then FV.fin (-999) else b3d

/-- process.py, process_ndvi_dynamics core on whole arrays. -/
def process_ndvi_dynamics (b1 b2 : Grid) : Grid :=
  zipWith2D process_ndvi_dynamics_px b1 b2

/-- hl/ViirsProcessor.py, process_recent_files (lines 47-62): the loop
body consults persistence.has_fileset only to emit a log line (there is no
skip branch), then always calls _process_fileset; on an exception it logs
and returns, ending the whole run.  `has` is the has_fileset collaborator,
`proc` abstracts whether _process_fileset succeeds.  The returned list
collects the filesets on which _process_fileset was invoked, in order. -/
def process_recent_files {α : Type} (has : α → Bool) (proc : α → Bool) :
    List α → List α
  | [] => []
  | f :: rest =>
      let _db_log_only := has f
      f :: (if proc f then process_recent_files has proc rest else [])

/-- A projection collaborator for concrete checks: returns the lon and lat
unchanged as finite planar coordinates. -/
def projW (lo la : ℚ) : FV × FV := (FV.fin lo, FV.fin la)

/-- A projection collaborator whose y output is always NaN while the x
output stays finite. -/
def projBad (lo la : ℚ) : FV × FV :=
  let _ := la
  (FV.fin lo, FV.nan)

/-- The record process_geoloc_file returns for projW, lat = lon = [50],
scale = 2000. -/
def gW : ProcessedGeolocFile :=
  ProcessedGeolocFile.mk [0] [0] [true] 50 50 2000 (1, 1)

/-- The record process_geoloc_file returns for projBad, lat = lon = [50],
scale = 2000: the NaN y coordinate is cast to INT64_MIN and survives into
geotransform_max_y. -/
def gBad : ProcessedGeolocFile :=
  ProcessedGeolocFile.mk [0] [0] [true] (-9223372036854775808) 50 2000 (1, 1)

/-- Two successful bands with different shapes, (2, 2) and (1, 1), in one
band group. -/
def filesMismatch : List BandFileRun :=
  [BandFileRun.mk 1 (some [[FV.fin 1, FV.fin 1], [FV.fin 1, FV.fin 1]]),
   BandFileRun.mk 1 (some [[FV.fin 2]])]

/-- Three bands of one group where exactly the middle one failed. -/
def filesOneFailed : List BandFileRun :=
  [BandFileRun.mk 1 (some [[FV.fin 1, FV.fin 2], [FV.fin 3, FV.fin 4]]),
   BandFileRun.mk 1 none,
   BandFileRun.mk 1 (some [[FV.fin 5, FV.fin 6], [FV.fin 7, FV.fin 8]])]

/-- The rectangular-shape predicate for a 2-d array: hh rows, each of
width ww. -/
def isShape (g : Grid) (hh ww : ℕ) : Prop :=
  g.length = hh ∧ ∀ row ∈ g, row.length = ww

theorem foldl_min_le_init (l : List ℤ) (a : ℤ) : l.foldl min a ≤ a := by
  induction l generalizing a with
  | nil => exact le_refl a
  | cons x t ih =>
      calc (x :: t).foldl min a = t.foldl min (min a x) := rfl
        _ ≤ min a x := ih (min a x)
        _ ≤ a := min_le_left a x

theorem foldl_min_le_mem (l : List ℤ) (a x : ℤ) (hx : x ∈ l) :
    l.foldl min a ≤ x := by
  induction l generalizing a with
  | nil => cases hx
  | cons y t ih =>
      rcases List.mem_cons.mp hx with h | h
      · subst h
        calc (x :: t).foldl min a = t.foldl min (min a x) := rfl
          _ ≤ min a x := foldl_min_le_init t (min a x)
          _ ≤ x := min_le_right a x
      · exact ih (min a y) h

theorem init_le_foldl_max (l : List ℤ) (a : ℤ) : a ≤ l.foldl max a := by
  induction l generalizing a with
  | nil => exact le_refl a
  | cons x t ih =>
      calc a ≤ max a x := le_max_left a x
        _ ≤ t.foldl max (max a x) := ih (max a x)
        _ = (x :: t).foldl max a := rfl

theorem mem_le_foldl_max (l : List ℤ) (a x : ℤ) (hx : x ∈ l) :
    x ≤ l.foldl max a := by
  induction l generalizing a with
  | nil => cases hx
  | cons y t ih =>
      rcases List.mem_cons.mp hx with h | h
      · subst h
        calc x ≤ max a x := le_max_right a x
          _ ≤ t.foldl max (max a x) := init_le_foldl_max t (max a x)
          _ = (x :: t).foldl max a := rfl
      · exact ih (max a y) h

theorem npmin_le (l : List ℤ) (x : ℤ) (hx : x ∈ l) : npmin l ≤ x :=
  foldl_min_le_mem l (l.headD 0) x hx

theorem le_npmax (l : List ℤ) (x : ℤ) (hx : x ∈ l) : x ≤ npmax l :=
  mem_le_foldl_max l (l.headD 0) x hx

/-- Elements of a min-normalized list are between 0 and the maximum of the
normalized list. -/
theorem sub_npmin_bounds (l : List ℤ) (v : ℤ)
    (hv : v ∈ l.map (fun x => x - npmin l)) :
    0 ≤ v ∧ v < npmax (l.map (fun x => x - npmin l)) + 1 := by
  obtain ⟨x, hx, rfl⟩ := List.mem_map.mp hv
  refine ⟨?_, ?_⟩
  · have := npmin_le l x hx
    omega
  · have := le_npmax (l.map (fun x => x - npmin l)) _ hv
    omega

/-- C1: whenever process_geoloc_file returns a GeolocationIndex (in
particular the validity mask selected at least one pixel), the row index
and column index arrays have the same shape, and every produced (row,
col) pair satisfies 0 <= row < out_image_shape.1 and
0 <= col < out_image_shape.2, where out_image_shape is
(max(row_index) + 1, max(col_index) + 1). -/
theorem c1_geoloc_indices_in_bounds
    (projection : ℚ → ℚ → FV × FV) (lat lon : List ℚ) (scale : ℚ)
    (g : ProcessedGeolocFile)
    (h : process_geoloc_file projection lat lon scale = Except.ok g) :
    g.x_index.length = g.y_index.length ∧
    g.out_image_shape =
      (npmax g.y_index + 1, npmax g.x_index + 1) ∧
    (∀ r ∈ g.y_index, 0 ≤ r ∧ r < g.out_image_shape.1) ∧
    (∀ c ∈ g.x_index, 0 ≤ c ∧ c < g.out_image_shape.2) := by
  simp only [process_geoloc_file] at h
  split at h
  · split at h
    · exact Except.noConfusion h
    · injection h with h
      subst h
      refine ⟨by simp, rfl, ?_, ?_⟩
      · intro r hr
        exact sub_npmin_bounds _ r hr
      · intro c hc
        exact sub_npmin_bounds _ c hc
  · exact Except.noConfusion h

/-- Witness for C1 at projection projW, lat = lon = [50], scale 2000. -/
theorem c1_geoloc_indices_in_bounds_witness :
    gW.x_index.length = gW.y_index.length ∧
    gW.out_image_shape = (npmax gW.y_index + 1, npmax gW.x_index + 1) ∧
    (∀ r ∈ gW.y_index, 0 ≤ r ∧ r < gW.out_image_shape.1) ∧
    (∀ c ∈ gW.x_index, 0 ≤ c ∧ c < gW.out_image_shape.2) :=
  c1_geoloc_indices_in_bounds projW [50] [50] 2000 gW (by
    norm_num [process_geoloc_file, projW, gW, npmin, npmax, FV.castRoundInt,
      FV.isFinite, roundHalfEven])

/-- The maximum of a min-normalized nonempty list is nonnegative. -/
theorem npmax_normalized_nonneg (l : List ℤ) (hl : l ≠ []) :
    0 ≤ npmax (l.map (fun x => x - npmin l)) := by
  cases l with
  | nil => exact absurd rfl hl
  | cons a t =>
      have hv : (a - npmin (a :: t)) ∈
          (a :: t).map (fun x => x - npmin (a :: t)) :=
        List.mem_map_of_mem _ (List.mem_cons_self a t)
      have h1 := sub_npmin_bounds (a :: t) _ hv
      have h2 := le_npmax _ _ hv
      omega

/-- C3 counterexample: a single geodetically valid pixel (the validity
mask is [true], selecting one sample) yields out_image_shape (1, 1), so
both dimensions equal 1 and the claimed lower bound 2 fails. -/
theorem c3_counterexample_single_pixel_shape_one :
    process_geoloc_file projW [50] [50] 2000 = Except.ok gW ∧
    gW.lonlat_mask = [true] ∧
    gW.out_image_shape = (1, 1) ∧
    ¬ (2 ≤ gW.out_image_shape.1 ∧ 2 ≤ gW.out_image_shape.2) := by
  refine ⟨?_, by norm_num [gW], by norm_num [gW], by norm_num [gW]⟩
  norm_num [process_geoloc_file, projW, gW, npmin, npmax, FV.castRoundInt,
    FV.isFinite, roundHalfEven]

/-- A min-normalized nonempty list has maximum at least 0, so max + 1 is
at least 1. -/
theorem one_le_npmax_norm_succ (l : List ℤ) (hl : l ≠ []) :
    1 ≤ npmax (l.map (fun x => x - npmin l)) + 1 := by
  have := npmax_normalized_nonneg l hl
  omega

/-- C3 amended: whenever process_geoloc_file returns a GeolocationIndex
(so at least one valid pixel was selected), both dimensions of
out_image_shape are at least 1; the bound 2 of the claim does not hold
(see the single-pixel counterexample), and the source only asserts
shape > 1 downstream, in process_band_file (line 193). -/
theorem c3_amended_shape_dims_ge_one
    (projection : ℚ → ℚ → FV × FV) (lat lon : List ℚ) (scale : ℚ)
    (g : ProcessedGeolocFile)
    (h : process_geoloc_file projection lat lon scale = Except.ok g) :
    1 ≤ g.out_image_shape.1 ∧ 1 ≤ g.out_image_shape.2 := by
  simp only [process_geoloc_file] at h
  split at h
  · split at h
    · exact Except.noConfusion h
    · next hpts =>
        injection h with h
        subst h
        constructor
        · exact one_le_npmax_norm_succ _
            (by simpa [List.map_eq_nil_iff] using hpts)
        · exact one_le_npmax_norm_succ _
            (by simpa [List.map_eq_nil_iff] using hpts)
  · exact Except.noConfusion h

/-- Witness for the amended C3 at projW, lat = lon = [50], scale 2000. -/
theorem c3_amended_shape_dims_ge_one_witness :
    1 ≤ gW.out_image_shape.1 ∧ 1 ≤ gW.out_image_shape.2 :=
  c3_amended_shape_dims_ge_one projW [50] [50] 2000 gW (by
    norm_num [process_geoloc_file, projW, gW, npmin, npmax, FV.castRoundInt,
      FV.isFinite, roundHalfEven])

/-- C4: the source re-checks x_index at line 126 (the assert whose message
names y_index), so a projection whose y output is NaN on the one valid
pixel, with finite x, passes both asserts: process_geoloc_file returns a
GeolocationIndex (the NaN is cast to INT64_MIN on the way into the y
index) and raises nothing, contradicting the claim that any non-finite
projected coordinate fails fatally with InvalidData. -/
theorem c4_nonfinite_y_not_detected :
    (projBad 50 50).2 = FV.nan ∧
    process_geoloc_file projBad [50] [50] 2000 = Except.ok gBad ∧
    (∀ e : ProcError, process_geoloc_file projBad [50] [50] 2000 ≠ Except.error e) := by
  have hok : process_geoloc_file projBad [50] [50] 2000 = Except.ok gBad := by
    norm_num [process_geoloc_file, projBad, gBad, npmin, npmax,
      FV.castRoundInt, FV.isFinite, roundHalfEven]
  refine ⟨rfl, hok, ?_⟩
  intro e
  rw [hok]
  exact fun hcontra => Except.noConfusion hcontra

/-- C5 counterexample: lat = lon = [-999] gives a validity mask selecting
zero pixels; process_geoloc_file does fail, but with the ValueError of the
zero-size x_index.min() reduction (line 129), not with InvalidData as the
claim states. -/
theorem c5_counterexample_error_not_invaliddata :
    (¬ ((-999 : ℚ) > -200)) ∧
    process_geoloc_file projW [-999] [-999] 2000 =
      Except.error ProcError.valueError ∧
    process_geoloc_file projW [-999] [-999] 2000 ≠
      Except.error ProcError.invalidData := by
  have herr : process_geoloc_file projW [-999] [-999] 2000 =
      Except.error ProcError.valueError := by
    norm_num [process_geoloc_file, projW]
  refine ⟨by norm_num, herr, ?_⟩
  rw [herr]
  intro hcontra
  exact absurd (Except.error.inj hcontra) (by intro h; cases h)

/-- C5 amended: for every input whose validity mask (lon > -200 and
lat > -200) selects zero pixels, process_geoloc_file fails, with the
ValueError numpy raises for the empty-array min reduction rather than
InvalidData. -/
theorem c5_amended_empty_mask_valueerror
    (projection : ℚ → ℚ → FV × FV) (lat lon : List ℚ) (scale : ℚ)
    (hmask : ∀ p ∈ List.zip lon lat, ¬ (p.1 > -200 ∧ p.2 > -200)) :
    process_geoloc_file projection lat lon scale =
      Except.error ProcError.valueError := by
  have hpts : (List.zip lon lat).filter
      (fun p => decide (p.1 > -200) && decide (p.2 > -200)) = [] := by
    rw [List.filter_eq_nil_iff]
    intro p hp
    simpa using hmask p hp
  simp [process_geoloc_file, hpts]

/-- Witness for the amended C5 at projW, lat = lon = [-999]. -/
theorem c5_amended_empty_mask_valueerror_witness :
    process_geoloc_file projW [-999] [-999] 2000 =
      Except.error ProcError.valueError :=
  c5_amended_empty_mask_valueerror projW [-999] [-999] 2000 (by
    intro p hp
    simp only [List.zip, List.zipWith, List.mem_singleton] at hp
    subst hp
    norm_num)

/-- The head shape of the mapped shape list is the shape of the head. -/
theorem headD_map_gridShape (l : List Grid) :
    (l.map gridShape).headD (0, 0) = gridShape (l.headD []) := by
  cases l <;> rfl

/-- C2: under the preconditions of _process_band_files (nonempty list of
descriptors of one band group), if at least one band run succeeded the
assembler returns exactly one grid per descriptor: successful grids are
kept at their position, failed ones are replaced by an all-NaN grid whose
shape is the shape of the first successful grid; and if every band run
failed it raises ProcessingException instead. -/
theorem c2_per_band_failure_substitution
    (files : List BandFileRun)
    (hne : files ≠ [])
    (hband : (files.map (fun f => f.band)).dedup.length = 1) :
    ((∃ f ∈ files, f.result ≠ none) →
      ∃ out, process_band_files files = Except.ok out ∧
        out.length = files.length ∧
        (∀ (i : ℕ) (f : BandFileRun), files[i]? = some f →
          (f.result = none → out[i]? =
            some (npfull (gridShape
              ((files.filterMap (fun fl : BandFileRun => fl.result)).headD [])))) ∧
          (∀ a, f.result = some a → out[i]? = some a))) ∧
    ((∀ f ∈ files, f.result = none) →
      process_band_files files = Except.error ProcError.processingException) := by
  have hlen : ¬ files.length = 0 := by
    simpa [List.length_eq_zero] using hne
  have hband2 : ¬ ¬ (files.map (fun f => f.band)).dedup.length = 1 :=
    not_not_intro hband
  constructor
  · intro hex
    obtain ⟨f0, hf0mem, hf0⟩ := hex
    have hall : ¬ ((files.map (fun f => f.result)).all Option.isNone = true) := by
      rw [List.all_eq_true]
      push_neg
      refine ⟨f0.result, List.mem_map_of_mem _ hf0mem, ?_⟩
      cases hres : f0.result with
      | none => exact absurd hres hf0
      | some a => simp
    have hfm : files.filterMap (fun fl : BandFileRun => fl.result) ≠ [] := by
      rw [ne_eq, List.filterMap_eq_nil_iff]
      push_neg
      exact ⟨f0, hf0mem, hf0⟩
    have hmm : (files.map (fun f => f.result)).filterMap id =
        files.filterMap (fun fl : BandFileRun => fl.result) := by
      rw [List.filterMap_map]
      rfl
    have hshapes : ¬ ((((files.map (fun f => f.result)).filterMap id).map
        gridShape).dedup.length = 0) := by
      rw [hmm, List.length_eq_zero, List.dedup_eq_nil, List.map_eq_nil_iff]
      exact hfm
    have hshape_eq : ((((files.map (fun f => f.result)).filterMap id).map
        gridShape).headD (0, 0)) =
        gridShape ((files.filterMap (fun fl : BandFileRun => fl.result)).headD []) := by
      rw [hmm, headD_map_gridShape]
    simp only [process_band_files, if_neg hlen, if_neg hband2, if_neg hall,
      if_neg hshapes, hshape_eq]
    refine ⟨_, rfl, by simp, ?_⟩
    intro i f hf
    have hout : ((files.map (fun fl : BandFileRun => fl.result)).map (fun a : Option Grid =>
        match a with
        | some v => v
        | none => npfull (gridShape
            ((files.filterMap (fun fl : BandFileRun => fl.result)).headD []))))[i]? =
        (files[i]?).map (fun fl : BandFileRun =>
          match fl.result with
          | some v => v
          | none => npfull (gridShape
              ((files.filterMap (fun fl : BandFileRun => fl.result)).headD []))) := by
      rw [List.getElem?_map, List.getElem?_map, Option.map_map]
      rfl
    constructor
    · intro hnone
      rw [hout, hf]
      simp [hnone]
    · intro a ha
      rw [hout, hf]
      simp [ha]
  · intro hallnone
    have hall : (files.map (fun f => f.result)).all Option.isNone = true := by
      rw [List.all_eq_true]
      intro a ha
      obtain ⟨f, hfmem, rfl⟩ := List.mem_map.mp ha
      rw [hallnone f hfmem]
      rfl
    simp only [process_band_files, if_neg hlen, if_neg hband2, if_pos hall]

/-- Witness for C2 at a 3-band group whose middle band failed: both
branches of the conclusion instantiated at filesOneFailed. -/
theorem c2_per_band_failure_substitution_witness :
    ((∃ f ∈ filesOneFailed, f.result ≠ none) →
      ∃ out, process_band_files filesOneFailed = Except.ok out ∧
        out.length = filesOneFailed.length ∧
        (∀ (i : ℕ) (f : BandFileRun), filesOneFailed[i]? = some f →
          (f.result = none → out[i]? =
            some (npfull (gridShape
              ((filesOneFailed.filterMap
                (fun fl : BandFileRun => fl.result)).headD [])))) ∧
          (∀ a, f.result = some a → out[i]? = some a))) ∧
    ((∀ f ∈ filesOneFailed, f.result = none) →
      process_band_files filesOneFailed =
        Except.error ProcError.processingException) :=
  c2_per_band_failure_substitution filesOneFailed (by decide) (by decide)

/-- C8: two successful band grids with shapes (2, 2) and (1, 1) pass the
assert of process.py line 240 untouched, because assert len(set(...))
only tests that the set of shapes of successful grids is nonempty; the
assembler returns the mismatched stack instead of failing with an
assertion error. -/
theorem c8_mismatched_shapes_not_detected :
    (filesMismatch.filterMap (fun f : BandFileRun => f.result)).map gridShape
      = [(2, 2), (1, 1)] ∧
    process_band_files filesMismatch = Except.ok
      [[[FV.fin 1, FV.fin 1], [FV.fin 1, FV.fin 1]], [[FV.fin 2]]] ∧
    (∀ e : ProcError, process_band_files filesMismatch ≠ Except.error e) := by
  have hok : process_band_files filesMismatch = Except.ok
      [[[FV.fin 1, FV.fin 1], [FV.fin 1, FV.fin 1]], [[FV.fin 2]]] := by
    decide
  refine ⟨by decide, hok, ?_⟩
  intro e h
  rw [hok] at h
  exact Except.noConfusion h

/-- Reading a cell of an elementwise combination of two arrays, inside the
common bounds, gives the combination of the two cells. -/
theorem getCell_zipWith2D (f : FV → FV → FV) (a b : Grid) (r c : ℕ)
    (hra : r < a.length) (hrb : r < b.length)
    (hca : c < (a.getD r []).length) (hcb : c < (b.getD r []).length) :
    getCell (zipWith2D f a b) r c = f (getCell a r c) (getCell b r c) := by
  unfold getCell zipWith2D
  have hr : r < (List.zipWith (List.zipWith f) a b).length := by
    rw [List.length_zipWith]
    omega
  have e1 : a.getD r [] = a[r] := List.getD_eq_getElem _ _ hra
  have e2 : b.getD r [] = b[r] := List.getD_eq_getElem _ _ hrb
  rw [e1] at hca
  rw [e2] at hcb
  rw [List.getD_eq_getElem _ _ hr, List.getElem_zipWith, e1, e2]
  have hc : c < (List.zipWith f a[r] b[r]).length := by
    rw [List.length_zipWith]
    omega
  rw [List.getD_eq_getElem _ _ hc, List.getD_eq_getElem _ _ hca,
    List.getD_eq_getElem _ _ hcb, List.getElem_zipWith]

/-- A cell that reads as a finite value is inside the array bounds (out of
range the junk default NaN would be read). -/
theorem getCell_fin_bounds (g : Grid) (r c : ℕ) (q : ℚ)
    (h : getCell g r c = FV.fin q) :
    r < g.length ∧ c < (g.getD r []).length := by
  constructor
  · by_contra hcontra
    push_neg at hcontra
    rw [getCell, List.getD_eq_default _ _ hcontra] at h
    exact FV.noConfusion h
  · by_contra hcontra
    push_neg at hcontra
    rw [getCell, List.getD_eq_default _ _ hcontra] at h
    exact FV.noConfusion h

/-- The equality test against a constant is false on any value other than
that finite constant. -/
theorem eqQ_false_of_ne (x : FV) (c : ℚ) (h : x ≠ FV.fin c) :
    FV.eqQ x c = false := by
  cases x with
  | fin q =>
      simp only [FV.eqQ, decide_eq_false_iff_not]
      intro hq
      exact h (by rw [hq])
  | nan => rfl
  | inf => rfl
  | ninf => rfl

/-- On finite inputs with nonzero b1, calc_ndvi_dynamics is the clamp of
the exact relative change to [-998, 998]. -/
theorem calc_ndvi_dynamics_fin (qa qb : ℚ) (h : qa ≠ 0) :
    calc_ndvi_dynamics (FV.fin qa) (FV.fin qb) =
      FV.fin (max (-998) (min 998 (100 * (qb - qa) / qa))) := by
  unfold calc_ndvi_dynamics
  simp only [FV.sub, FV.mul, FV.div, if_neg h]
  by_cases h1 : (998 : ℚ) < 100 * (qb - qa) / qa
  · have hgt : (FV.fin (100 * (qb - qa) / qa)).gtQ 998 = true := by
      simp [FV.gtQ, h1]
    have hlt : (FV.fin (998 : ℚ)).ltQ (-998) = false := by
      norm_num [FV.ltQ]
    rw [min_eq_left (le_of_lt h1), max_eq_right (by norm_num : (-998 : ℚ) ≤ 998)]
    simp [hgt, hlt]
  · push_neg at h1
    have hgt : (FV.fin (100 * (qb - qa) / qa)).gtQ 998 = false := by
      simp only [FV.gtQ, decide_eq_false_iff_not]
      exact not_lt.mpr h1
    by_cases h2 : 100 * (qb - qa) / qa < -998
    · have hlt : (FV.fin (100 * (qb - qa) / qa)).ltQ (-998) = true := by
        simp [FV.ltQ, h2]
      rw [min_eq_right h1, max_eq_left (le_of_lt h2)]
      simp [hgt, hlt]
    · push_neg at h2
      have hlt : (FV.fin (100 * (qb - qa) / qa)).ltQ (-998) = false := by
        simp only [FV.ltQ, decide_eq_false_iff_not]
        exact not_lt.mpr h2
      rw [min_eq_right h1, max_eq_right h2]
      simp [hgt, hlt]

/-- C6: at each pixel of the NDVI-dynamics product of two equal-shaped
inputs, a cloud sentinel -2 in either input yields -999 (this wins over
NaN); otherwise a NaN in either input propagates NaN; otherwise, on
finite non-sentinel inputs with b1 nonzero, the result is
100*(b2-b1)/b1 clamped to [-998, 998]. -/
theorem c6_ndvi_dynamics_cell_semantics
    (b1 b2 : Grid) (r c : ℕ) (a b : FV)
    (hr1 : r < b1.length) (hr2 : r < b2.length)
    (hc1 : c < (b1.getD r []).length) (hc2 : c < (b2.getD r []).length)
    (ha : getCell b1 r c = a) (hb : getCell b2 r c = b) :
    ((a = FV.fin (-2) ∨ b = FV.fin (-2)) →
      getCell (process_ndvi_dynamics b1 b2) r c = FV.fin (-999)) ∧
    (a ≠ FV.fin (-2) → b ≠ FV.fin (-2) → (a = FV.nan ∨ b = FV.nan) →
      getCell (process_ndvi_dynamics b1 b2) r c = FV.nan) ∧
    (∀ qa qb : ℚ, a = FV.fin qa → b = FV.fin qb →
      qa ≠ -2 → qb ≠ -2 → qa ≠ 0 →
      getCell (process_ndvi_dynamics b1 b2) r c =
        FV.fin (max (-998) (min 998 (100 * (qb - qa) / qa)))) := by
  have hcell : getCell (process_ndvi_dynamics b1 b2) r c =
      process_ndvi_dynamics_px a b := by
    rw [process_ndvi_dynamics,
      getCell_zipWith2D _ _ _ _ _ hr1 hr2 hc1 hc2, ha, hb]
  refine ⟨?_, ?_, ?_⟩
  · rintro (rfl | rfl)
    · simp [hcell, process_ndvi_dynamics_px, FV.eqQ]
    · simp [hcell, process_ndvi_dynamics_px, FV.eqQ]
  · intro hna hnb hnan
    rw [hcell]
    have e1 := eqQ_false_of_ne a (-2) hna
    have e2 := eqQ_false_of_ne b (-2) hnb
    rcases hnan with rfl | rfl
    · simp [process_ndvi_dynamics_px, e1, e2, FV.isnan]
    · simp [process_ndvi_dynamics_px, e1, e2, FV.isnan]
  · rintro qa qb rfl rfl hqa2 hqb2 hqa0
    rw [hcell]
    have e1 : FV.eqQ (FV.fin qa) (-2) = false := by
      simpa [FV.eqQ] using hqa2
    have e2 : FV.eqQ (FV.fin qb) (-2) = false := by
      simpa [FV.eqQ] using hqb2
    have hd : process_ndvi_dynamics_px (FV.fin qa) (FV.fin qb) =
        calc_ndvi_dynamics (FV.fin qa) (FV.fin qb) := by
      simp [process_ndvi_dynamics_px, e1, e2, FV.isnan]
    rw [hd, calc_ndvi_dynamics_fin qa qb hqa0]

/-- Witness for C6: the two clamp instances of the claim (b1 = 0.001 with
b2 = 10 and b2 = -10), cloud precedence over NaN, and NaN propagation, on
1x1 grids. -/
theorem c6_ndvi_dynamics_cell_semantics_witness :
    getCell (process_ndvi_dynamics [[FV.fin (1 / 1000)]] [[FV.fin 10]]) 0 0 =
      FV.fin 998 ∧
    getCell (process_ndvi_dynamics [[FV.fin (1 / 1000)]] [[FV.fin (-10)]]) 0 0 =
      FV.fin (-998) ∧
    getCell (process_ndvi_dynamics [[FV.fin (-2)]] [[FV.nan]]) 0 0 =
      FV.fin (-999) ∧
    getCell (process_ndvi_dynamics [[FV.fin 5]] [[FV.nan]]) 0 0 = FV.nan := by
  refine ⟨?_, ?_, ?_, ?_⟩
  · have h := (c6_ndvi_dynamics_cell_semantics [[FV.fin (1 / 1000)]]
      [[FV.fin 10]] 0 0 (FV.fin (1 / 1000)) (FV.fin 10)
      (by norm_num) (by norm_num) (by simp) (by simp) rfl rfl).2.2
      (1 / 1000) 10 rfl rfl (by norm_num) (by norm_num) (by norm_num)
    rw [h, min_eq_left (by norm_num), max_eq_right (by norm_num)]
  · have h := (c6_ndvi_dynamics_cell_semantics [[FV.fin (1 / 1000)]]
      [[FV.fin (-10)]] 0 0 (FV.fin (1 / 1000)) (FV.fin (-10))
      (by norm_num) (by norm_num) (by simp) (by simp) rfl rfl).2.2
      (1 / 1000) (-10) rfl rfl (by norm_num) (by norm_num) (by norm_num)
    rw [h, min_eq_right (by norm_num), max_eq_left (by norm_num)]
  · exact (c6_ndvi_dynamics_cell_semantics [[FV.fin (-2)]] [[FV.nan]] 0 0
      (FV.fin (-2)) FV.nan (by norm_num) (by norm_num) (by simp) (by simp)
      rfl rfl).1 (Or.inl rfl)
  · exact (c6_ndvi_dynamics_cell_semantics [[FV.fin 5]] [[FV.nan]] 0 0
      (FV.fin 5) FV.nan (by norm_num) (by norm_num) (by simp) (by simp)
      rfl rfl).2.1 (by norm_num) (by simp) (Or.inr rfl)

/-- C7 counterexample: at a pixel with red = -1 and nir = 1 the sum
red + nir is exactly 0 but nir - red = 2, so the elementwise division of
process_ndvi yields +infinity, not NaN as the claim states. -/
theorem c7_counterexample_sum_zero_not_nan :
    FV.add (FV.fin (-1)) (FV.fin 1) = FV.fin 0 ∧
    getCell (process_ndvi [[FV.fin (-1)]] [[FV.fin 1]]) 0 0 = FV.inf ∧
    FV.inf ≠ FV.nan := by
  refine ⟨by norm_num [FV.add], ?_, by simp⟩
  norm_num [process_ndvi, zipWith2D, getCell, process_ndvi_px, FV.sub,
    FV.add, FV.div, List.getD]

/-- C7 amended: process_ndvi is total (no exception); at a pixel with
finite inputs the result is the IEEE division of nir - red by red + nir:
NaN exactly when both differences are zero (the 0/0 case), a signed
infinity when only the sum is zero, and the finite quotient otherwise;
for nonnegative finite inputs with nonzero sum that quotient lies in
[-1, 1]. -/
theorem c7_amended_ndvi_cases
    (red nir : Grid) (r c : ℕ) (qr qn : ℚ)
    (hr : getCell red r c = FV.fin qr) (hn : getCell nir r c = FV.fin qn) :
    getCell (process_ndvi red nir) r c =
      (if qr + qn = 0 then
        (if qn - qr = 0 then FV.nan
         else if 0 < qn - qr then FV.inf else FV.ninf)
       else FV.fin ((qn - qr) / (qr + qn))) ∧
    (0 ≤ qr → 0 ≤ qn → qr + qn ≠ 0 →
      -1 ≤ (qn - qr) / (qr + qn) ∧ (qn - qr) / (qr + qn) ≤ 1) := by
  obtain ⟨hrr, hrc⟩ := getCell_fin_bounds red r c qr hr
  obtain ⟨hnr, hnc⟩ := getCell_fin_bounds nir r c qn hn
  have hcell : getCell (process_ndvi red nir) r c =
      process_ndvi_px (FV.fin qr) (FV.fin qn) := by
    rw [process_ndvi, getCell_zipWith2D _ _ _ _ _ hrr hnr hrc hnc, hr, hn]
  constructor
  · rw [hcell]
    simp only [process_ndvi_px, FV.sub, FV.add, FV.div]
  · intro h0r h0n hsum
    have hpos : 0 < qr + qn := lt_of_le_of_ne (add_nonneg h0r h0n) (Ne.symm hsum)
    constructor
    · rw [le_div_iff₀ hpos]
      linarith
    · rw [div_le_one hpos]
      linarith

/-- Witness for the amended C7 at red = 1, nir = 3 on 1x1 grids. -/
theorem c7_amended_ndvi_cases_witness :
    (getCell (process_ndvi [[FV.fin 1]] [[FV.fin 3]]) 0 0 =
      (if (1 : ℚ) + 3 = 0 then
        (if (3 : ℚ) - 1 = 0 then FV.nan
         else if 0 < (3 : ℚ) - 1 then FV.inf else FV.ninf)
       else FV.fin (((3 : ℚ) - 1) / (1 + 3)))) ∧
    ((0 : ℚ) ≤ 1 → (0 : ℚ) ≤ 3 → (1 : ℚ) + 3 ≠ 0 →
      -1 ≤ ((3 : ℚ) - 1) / (1 + 3) ∧ ((3 : ℚ) - 1) / (1 + 3) ≤ 1) :=
  c7_amended_ndvi_cases [[FV.fin 1]] [[FV.fin 3]] 0 0 1 3 rfl rfl

theorem isShape_npzeros (hh ww : ℕ) : isShape (npzeros (hh, ww)) hh ww := by
  constructor
  · simp [npzeros]
  · intro row hrow
    have := List.eq_of_mem_replicate hrow
    rw [this, List.length_replicate]

theorem isShape_setCell (g : Grid) (hh ww r c : ℕ) (v : FV)
    (hs : isShape g hh ww) : isShape (setCell g r c v) hh ww := by
  obtain ⟨h1, h2⟩ := hs
  by_cases hr : r < g.length
  · constructor
    · rw [setCell, List.length_set]
      exact h1
    · intro row hrow
      rcases List.mem_or_eq_of_mem_set hrow with h | h
      · exact h2 row h
      · rw [h, List.length_set]
        refine h2 _ ?_
        rw [List.getD_eq_getElem _ _ hr]
        exact List.getElem_mem _
  · rw [setCell, List.set_eq_of_length_le (Nat.le_of_not_lt hr)]
    exact ⟨h1, h2⟩

theorem getCell_setCell_self (g : Grid) (hh ww r c : ℕ) (v : FV)
    (hs : isShape g hh ww) (hr : r < hh) (hc : c < ww) :
    getCell (setCell g r c v) r c = v := by
  obtain ⟨h1, h2⟩ := hs
  have hrg : r < g.length := by omega
  have hrowlen : (g.getD r []).length = ww := by
    rw [List.getD_eq_getElem _ _ hrg]
    exact h2 _ (List.getElem_mem _)
  have hset : (setCell g r c v).getD r [] = (g.getD r []).set c v := by
    unfold setCell
    rw [List.getD_eq_getElem?_getD, List.getElem?_set_self hrg,
      Option.getD_some]
  unfold getCell
  rw [hset, List.getD_eq_getElem?_getD,
    List.getElem?_set_self (by rw [hrowlen]; exact hc), Option.getD_some]

theorem getCell_setCell_ne (g : Grid) (r c rx cx : ℕ) (v : FV)
    (hne : r ≠ rx ∨ c ≠ cx) :
    getCell (setCell g r c v) rx cx = getCell g rx cx := by
  rcases hne with hne | hne
  · simp only [getCell, setCell, List.getD_eq_getElem?_getD]
    rw [List.getElem?_set_ne hne]
  · by_cases hr : r = rx
    · subst hr
      by_cases hrg : r < g.length
      · simp only [getCell, setCell, List.getD_eq_getElem?_getD]
        rw [List.getElem?_set_self hrg, Option.getD_some,
          List.getElem?_set_ne hne]
      · rw [setCell, List.set_eq_of_length_le (Nat.le_of_not_lt hrg)]
    · simp only [getCell, setCell, List.getD_eq_getElem?_getD]
      rw [List.getElem?_set_ne hr]

theorem isShape_scatter_foldl (ps : List ((ℕ × ℕ) × FV)) (g : Grid)
    (hh ww : ℕ) (hs : isShape g hh ww) :
    isShape (ps.foldl (fun gr p => setCell gr p.1.1 p.1.2 p.2) g) hh ww := by
  induction ps generalizing g with
  | nil => exact hs
  | cons p t ih => exact ih _ (isShape_setCell _ _ _ _ _ _ hs)

theorem getCell_scatter_foldl_no_hit (ps : List ((ℕ × ℕ) × FV)) (g : Grid)
    (r c : ℕ) (hmiss : ∀ p ∈ ps, p.1 ≠ (r, c)) :
    getCell (ps.foldl (fun gr p => setCell gr p.1.1 p.1.2 p.2) g) r c =
      getCell g r c := by
  induction ps generalizing g with
  | nil => rfl
  | cons p t ih =>
      rw [List.foldl_cons,
        ih _ (fun q hq => hmiss q (List.mem_cons_of_mem p hq))]
      apply getCell_setCell_ne
      have hp := hmiss p (List.mem_cons_self p t)
      by_cases h1 : p.1.1 = r
      · right
        intro h2
        exact hp (by rw [← h1, ← h2])
      · left
        exact h1

/-- C9: in the scatter step image[y_index, x_index] = arr of
process_band_file, whenever index j is the last position in iteration
order whose (row, col) pair targets a given cell, that cell of the
scattered grid holds sample j (last write wins); in particular a cell
targeted by exactly one sample holds that sample. -/
theorem c9_scatter_last_write_wins
    (hh ww : ℕ) (ys xs : List ℕ) (vals : List FV)
    (hly : ys.length = vals.length) (hlx : xs.length = vals.length)
    (hb : ∀ i, i < vals.length → ys.getD i 0 < hh ∧ xs.getD i 0 < ww)
    (j : ℕ) (hj : j < vals.length)
    (hlast : ∀ k, j < k → k < vals.length →
      ys.getD k 0 ≠ ys.getD j 0 ∨ xs.getD k 0 ≠ xs.getD j 0) :
    getCell (npIndexAssign (npzeros (hh, ww)) ys xs vals)
      (ys.getD j 0) (xs.getD j 0) = vals.getD j FV.nan := by
  have hpslen : ((ys.zip xs).zip vals).length = vals.length := by
    simp [List.length_zip, hly, hlx]
  have hgetps : ∀ k, k < vals.length →
      ((ys.zip xs).zip vals)[k]? =
        some ((ys.getD k 0, xs.getD k 0), vals.getD k FV.nan) := by
    intro k hk
    have hk2 : k < ((ys.zip xs).zip vals).length := by
      rw [hpslen]
      exact hk
    rw [List.getElem?_eq_getElem hk2, List.getElem_zip, List.getElem_zip,
      List.getD_eq_getElem _ _ (show k < ys.length by omega),
      List.getD_eq_getElem _ _ (show k < xs.length by omega),
      List.getD_eq_getElem _ _ hk]
  have hmiss : ∀ p ∈ ((ys.zip xs).zip vals).drop (j + 1),
      p.1 ≠ (ys.getD j 0, xs.getD j 0) := by
    intro p hp
    obtain ⟨m, hm, hpe⟩ := List.mem_iff_getElem.mp hp
    have hk : j + 1 + m < vals.length := by
      rw [List.length_drop, hpslen] at hm
      omega
    have hpe2 : (((ys.zip xs).zip vals).drop (j + 1))[m]? = some p := by
      rw [List.getElem?_eq_getElem hm, hpe]
    rw [List.getElem?_drop, hgetps (j + 1 + m) hk] at hpe2
    have hpe3 := Option.some.inj hpe2
    intro hcontra
    rw [← hpe3] at hcontra
    simp only [Prod.mk.injEq] at hcontra
    rcases hlast (j + 1 + m) (by omega) hk with hne | hne
    · exact hne hcontra.1
    · exact hne hcontra.2
  unfold npIndexAssign
  rw [← List.take_append_drop (j + 1) ((ys.zip xs).zip vals),
    List.foldl_append,
    getCell_scatter_foldl_no_hit _ _ _ _ hmiss]
  rw [List.take_succ, hgetps j hj]
  simp only [Option.toList_some, List.foldl_append, List.foldl_cons,
    List.foldl_nil]
  exact getCell_setCell_self _ hh ww _ _ _
    (isShape_scatter_foldl _ _ hh ww (isShape_npzeros hh ww))
    (hb j hj).1 (hb j hj).2

/-- Witness for C9: a 2x2 grid, samples [1, 2, 3] scattered at (0,0),
(0,0), (1,1); index 1 is the last writer of cell (0,0) and the cell holds
sample 2. -/
theorem c9_scatter_last_write_wins_witness :
    getCell (npIndexAssign (npzeros (2, 2)) [0, 0, 1] [0, 0, 1]
      [FV.fin 1, FV.fin 2, FV.fin 3])
      (([0, 0, 1] : List ℕ).getD 1 0) (([0, 0, 1] : List ℕ).getD 1 0) =
    [FV.fin 1, FV.fin 2, FV.fin 3].getD 1 FV.nan :=
  c9_scatter_last_write_wins 2 2 [0, 0, 1] [0, 0, 1]
    [FV.fin 1, FV.fin 2, FV.fin 3] rfl rfl
    (by
      intro i hi
      have hi3 : i < 3 := by simpa using hi
      rcases (by omega : i = 0 ∨ i = 1 ∨ i = 2) with rfl | rfl | rfl <;>
        exact ⟨by decide, by decide⟩)
    1 (by decide)
    (by
      intro k hk1 hk2
      have hk3 : k < 3 := by simpa using hk2
      have hk : k = 2 := by omega
      subst hk
      left
      decide)

/-- C10: the has_fileset check in process_recent_files only logs.  The
list of filesets handed to _process_fileset is the same for any two
persistence predicates (so recording a file set as processed changes
nothing), and when every _process_fileset call succeeds, every found
file set is fully processed, already-recorded ones included. -/
theorem c10_has_fileset_does_not_skip {α : Type}
    (has1 has2 : α → Bool) (proc : α → Bool) (filesets : List α) :
    process_recent_files has1 proc filesets =
      process_recent_files has2 proc filesets ∧
    ((∀ f ∈ filesets, proc f = true) →
      process_recent_files has1 proc filesets = filesets) := by
  constructor
  · induction filesets with
    | nil => rfl
    | cons f t ih =>
        simp only [process_recent_files]
        rw [ih]
  · induction filesets with
    | nil => intro _; rfl
    | cons f t ih =>
        intro hall
        simp only [process_recent_files]
        rw [if_pos (hall f (List.mem_cons_self f t)),
          ih (fun x hx => hall x (List.mem_cons_of_mem f hx))]

/-- Witness for C10: three filesets, a persistence store that reports all
of them as already processed versus one that reports none, and an always
succeeding _process_fileset. -/
theorem c10_has_fileset_does_not_skip_witness :
    process_recent_files (fun _ : ℕ => true) (fun _ : ℕ => true) [1, 2, 3] =
      process_recent_files (fun _ : ℕ => false) (fun _ : ℕ => true) [1, 2, 3] ∧
    ((∀ f ∈ ([1, 2, 3] : List ℕ), (fun _ : ℕ => true) f = true) →
      process_recent_files (fun _ : ℕ => true) (fun _ : ℕ => true) [1, 2, 3] =
        [1, 2, 3]) :=
  c10_has_fileset_does_not_skip (fun _ => true) (fun _ => false)
    (fun _ => true) [1, 2, 3]
